import Mathlib

/-!
Verification of the due-date normalization and grouping engine of a
browser-resident task and work-order tracker.

Two embeddings are used, matching the two halves of the source:

* The to-do list core (TodoList component and its helpers) works on local
  calendar dates produced by `startOfDay`, compared only through the
  injective encoding `toISODate` (zero-padded `YYYY-MM-DD` strings, whose
  lexicographic order agrees with chronological order).  We embed a
  calendar date as the number of days since 1970-01-01 (a Thursday), so
  `addDays` is addition, `startOfDay` is the identity (the model lives at
  day granularity), `getDay` is `(d + 4) % 7`, and ISO strings are
  represented by the day number itself.  String equality and the
  lexicographic `>=` used by the cleanup become equality and `≤` on day
  numbers.

* The work-order list (WOList component) parses raw user strings, so its
  date normalizer and urgency classifier are embedded over actual
  strings, with JS `Date.UTC` realised by the standard civil-calendar
  day-number algorithm (proleptic Gregorian, as ECMAScript specifies),
  including the month-overflow normalization and the rule that year
  arguments 0..99 denote 1900 + y.
-/

namespace TodoWO

/-- Priority of a task: one of the string literals "low" | "medium" | "high". -/
inductive Priority where
  | low
  | medium
  | high
deriving DecidableEq

/-- priorityRank: high = 0, medium = 1, low = 2 (High to Low ordering). -/
def priorityRank : Priority → Nat
  | .high => 0
  | .medium => 1
  | .low => 2

/-- JS `Date.getDay` in the day-number model: day 0 is 1970-01-01, a
Thursday, and 0 = Sunday .. 6 = Saturday. -/
def jsDow (d : Nat) : Nat := (d + 4) % 7

/-- nextMondayFrom: `const daysUntilMon = (1 + 7 - dow) % 7 || 1; return addDays(d, daysUntilMon)`.
The JS `|| 1` replaces a zero result (which happens exactly when `dow = 1`,
Monday) with 1. -/
def nextMondayFrom (d : Nat) : Nat :=
  let dow := jsDow d
  let daysUntilMon := if (1 + 7 - dow) % 7 = 0 then 1 else (1 + 7 - dow) % 7
  d + daysUntilMon

/-- Stable due keys: "today" | "tomorrow" | "next-mon" | "wd-YYYY-MM-DD".
The `wd` constructor carries the literal date encoded in the key string. -/
inductive DueKey where
  | today
  | tomorrow
  | nextMon
  | wd (date : Nat)
deriving DecidableEq

/-- A due-option label such as "Today (03/04/25)".  The label string is
built from the option kind and a formatted date (`fmtMDY`), so we model it
by that pair; distinct pairs correspond to distinct label strings. -/
abbrev Label := DueKey × Nat

/-- computeKeyForISO: null iso defaults to "today"; then compares the iso
date against today, tomorrow and nextMondayFrom(today) in that order, and
otherwise keys by the literal date (`wd-` prefix). -/
def computeKeyForISO (iso : Option Nat) (now : Nat) : DueKey :=
  match iso with
  | none => .today
  | some d =>
    if d = now then .today
    else if d = now + 1 then .tomorrow
    else if d = nextMondayFrom now then .nextMon
    else .wd d

/-- Group header labels: "Today", "Tomorrow", "Next Monday", a weekday
name (from `weekdayName`, determined by the day of week), or "No Date". -/
inductive GroupLabel where
  | noDate
  | today
  | tomorrow
  | nextMonday
  | weekday (dow : Nat)
deriving DecidableEq

/-- computeGroupLabelForISO: same comparisons as computeKeyForISO but a
missing date labels "No Date" and the fallback label is the weekday name
of the literal date. -/
def computeGroupLabelForISO (iso : Option Nat) (now : Nat) : GroupLabel :=
  match iso with
  | none => .noDate
  | some d =>
    if d = now then .today
    else if d = now + 1 then .tomorrow
    else if d = nextMondayFrom now then .nextMonday
    else .weekday (jsDow d)

/-- A due option as produced by buildDueOptions: key, display label, iso date. -/
structure DueOpt where
  key : DueKey
  label : Label
  iso : Nat
deriving DecidableEq

instance : Inhabited DueOpt := ⟨⟨.today, (.today, 0), 0⟩⟩

/-- The option pushed by the weekday loop body of buildDueOptions. -/
def wdOpt (c : Nat) : DueOpt := ⟨.wd c, (.wd c, c), c⟩

/-- The `while (cursor.getDay() <= 5)` loop of buildDueOptions.  The loop
is entered with the cursor on Wednesday..Saturday and stops at Saturday,
so it runs at most three times; fuel 7 is more than enough. -/
def wdLoop (cursor : Nat) (fuel : Nat) : List DueOpt :=
  match fuel with
  | 0 => []
  | f + 1 =>
    if jsDow cursor ≤ 5 then wdOpt cursor :: wdLoop (cursor + 1) f
    else []

/-- buildDueOptions: always "today" first; on Friday, Saturday or Sunday
only "next-mon" follows; otherwise "tomorrow", the weekday loop from
today + 2, and finally "next-mon". -/
def buildDueOptions (now : Nat) : List DueOpt :=
  let today := now
  let dow := jsDow today
  let topt : DueOpt := ⟨.today, (.today, today), today⟩
  let nmopt : DueOpt := ⟨.nextMon, (.nextMon, nextMondayFrom today), nextMondayFrom today⟩
  if dow = 5 ∨ dow = 6 ∨ dow = 0 then
    [topt, nmopt]
  else
    [topt, ⟨.tomorrow, (.tomorrow, today + 1), today + 1⟩]
      ++ wdLoop (today + 2) 7
      ++ [nmopt]

/-- A task record of the TodoList component, with the stable due fields,
the staged (pending) due fields and the legacy dueLabel display field. -/
structure Task where
  id : String
  text : String
  done : Bool
  priority : Priority
  dueKey : Option DueKey
  dueISO : Option Nat
  pendingDueKey : Option DueKey
  pendingDueISO : Option Nat
  dueLabel : Option Label
  notes : String
  expanded : Bool
deriving DecidableEq

/-- The onChangeDue handler body applied to the matched record: look the
key up in buildDueOptions (falling back to the first option), update the
pill text (dueLabel) immediately and stage the new due in pendingDueKey
and pendingDueISO only; dueISO and dueKey are untouched. -/
def onChangeDue (now : Nat) (k : DueKey) (t : Task) : Task :=
  let opts := buildDueOptions now
  let opt := (opts.find? (fun o => o.key == k)).getD opts.headI
  { t with
      dueLabel := some opt.label
      pendingDueKey := some opt.key
      pendingDueISO := some opt.iso }

/-- The onUnpin commit applied to the pinned record: `isoToUse` is
`pendingDueISO ?? dueISO ?? null`, the key is recomputed from it, the
label is looked up among the current options (falling back to the first
option), and the pending fields are cleared. -/
def commitPending (now : Nat) (t : Task) : Task :=
  let opts := buildDueOptions now
  let isoToUse := t.pendingDueISO.orElse (fun _ => t.dueISO)
  let keyToUse := computeKeyForISO isoToUse now
  let opt := (opts.find? (fun o => o.key == keyToUse)).getD opts.headI
  { t with
      dueISO := isoToUse
      dueKey := some keyToUse
      dueLabel := some opt.label
      pendingDueISO := none
      pendingDueKey := none }

/-- cleanupDoneBeforeToday: keep a task unless it is done, has a due date,
and that due date is strictly before today (`t.dueISO >= todayIso` on
zero-padded ISO strings is chronological `≤` in the day-number model). -/
def cleanupDoneBeforeToday (todayIso : Nat) (tasks : List Task) : List Task :=
  tasks.filter (fun t =>
    if !t.done then true
    else
      match t.dueISO with
      | none => true
      | some d => decide (todayIso ≤ d))

/-- The sort comparator of sortByPriorityStable, as a total preorder: the
JS comparator returns `pa - pb` when ranks differ and `ia - ib` otherwise,
and JS `Array.prototype.sort` is stable, which is exactly a merge sort by
the relation `pa < pb or (pa = pb and ia ≤ ib)`. -/
def taskLe (im : String → Nat) (a b : Task) : Bool :=
  decide (priorityRank a.priority < priorityRank b.priority ∨
    (priorityRank a.priority = priorityRank b.priority ∧ im a.id ≤ im b.id))

/-- sortByPriorityStable: stable sort by priority rank, ties broken by the
index map built from the whole task collection. -/
def sortByPriorityStable (items : List Task) (im : String → Nat) : List Task :=
  items.mergeSort (taskLe im)

/-- The index map `tasks.forEach((t, i) => indexMap.set(t.id, i))` with
the JS `indexMap.get(id) ?? 0` fallback; a repeated id keeps the last
index set, hence the reversed search. -/
def indexMapOf (tasks : List Task) : String → Nat := fun id =>
  (((tasks.enum.reverse).find? (fun p => p.2.id == id)).map (fun p => p.1)).getD 0

/-- The per-bucket ordering of the render: the "Today" bucket is
partitioned into undone and done, each partition sorted independently and
concatenated undone-first; every other bucket sorts the full set. -/
def orderBucket (label : GroupLabel) (items : List Task) (im : String → Nat) : List Task :=
  if label = GroupLabel.today then
    sortByPriorityStable (items.filter (fun x => !x.done)) im
      ++ sortByPriorityStable (items.filter (fun x => x.done)) im
  else
    sortByPriorityStable items im

/-- A concrete task used by closed counterexample and witness statements. -/
def sampleTask : Task :=
  { id := "a", text := "t", done := false, priority := .high,
    dueKey := some .today, dueISO := some 0,
    pendingDueKey := none, pendingDueISO := none,
    dueLabel := none, notes := "", expanded := true }

/-! The work-order side (WOList component): real string parsing. -/

/-- Urgency tiers of a work order: "low" | "medium" | "high". -/
inductive Urgency where
  | low
  | medium
  | high
deriving DecidableEq

/-- A calendar date given by the local components of `now`:
`getFullYear()`, `getMonth() + 1` and `getDate()`. -/
structure YMD where
  y : Nat
  m : Nat
  d : Nat
deriving DecidableEq

/-- JS `String.prototype.split` with a single-character separator:
splitting the empty string yields one empty part, and a separator at
either end produces an empty part there. -/
def splitOnChar (sep : Char) (cs : List Char) : List (List Char) :=
  match cs with
  | [] => [[]]
  | c :: rest =>
    let r := splitOnChar sep rest
    if c = sep then [] :: r
    else
      match r with
      | [] => [[c]]
      | h :: t => (c :: h) :: t

/-- Digit-string value, most significant digit first. -/
def digitsToNat (cs : List Char) : Nat :=
  cs.foldl (fun acc c => acc * 10 + (c.toNat - 48)) 0

/-- JS `Number(part)` for a part produced by splitting on a hyphen: the
empty string converts to 0 and a run of ASCII digits to its value; any
other shape is NaN, modelled as `none`.  (Exotic JS numeric forms such as
fractions, exponents or surrounding whitespace are outside the model.) -/
def jsNumberOfPart (cs : List Char) : Option Nat :=
  if cs = [] then some 0
  else if cs.all Char.isDigit then some (digitsToNat cs)
  else none

/-- The destructuring `const [y, m, d] = iso.split("-").map(Number)`
followed by the guard `if (!y || !m || !d)`: a missing part behaves like
NaN under `!`, and 0 and NaN are falsy.  Returns the three components
when all are present, numeric and nonzero. -/
def parseISOParts (s : String) : Option (Nat × Nat × Nat) :=
  let parts := (splitOnChar (Char.ofNat 45) s.data).map jsNumberOfPart
  match parts.getD 0 none, parts.getD 1 none, parts.getD 2 none with
  | some y, some m, some d =>
    if y = 0 ∨ m = 0 ∨ d = 0 then none else some (y, m, d)
  | _, _, _ => none

/-- Days since 1970-01-01 of the proleptic-Gregorian date (y, m, d), for
y ≥ 1 and m in [1, 12]; d ≥ 1 may exceed the month length, offsetting
from the first of the month exactly as ECMAScript MakeDay does. -/
def daysFromCivil (y m d : Nat) : Int :=
  let yy := if m ≤ 2 then y - 1 else y
  let era := yy / 400
  let yoe := yy % 400
  let mp := (m + 9) % 12
  let doy := (153 * mp + 2) / 5 + (d - 1)
  let doe := yoe * 365 + yoe / 4 - yoe / 100 + doy
  (era : Int) * 146097 + (doe : Int) - 719468

/-- JS `Date.UTC(y, m - 1, d)` in whole days since the epoch, for a
1-based month m ≥ 1 and day d ≥ 1: year arguments 0..99 denote 1900 + y,
and an out-of-range month overflows into the year. -/
def dateUTCdays (y m d : Nat) : Int :=
  let yr := if y ≤ 99 then 1900 + y else y
  let ym := yr + (m - 1) / 12
  let mn := (m - 1) % 12 + 1
  daysFromCivil ym mn d

/-- daysBetweenUTC: POSITIVE_INFINITY (modelled `none`) for a missing due
string or a failed parse; otherwise `Math.round((aUTC - bUTC) / 86400000)`,
which is exact because both operands are UTC midnights, so the result is
the signed day distance. -/
def daysBetweenUTC (iso : Option String) (now : YMD) : Option Int :=
  match iso with
  | none => none
  | some s =>
    match parseISOParts s with
    | none => none
    | some (y, m, d) => some (dateUTCdays y m d - dateUTCdays now.y now.m now.d)

/-- computeUrgencyFromDue: a non-finite distance (no date) is low; then
d < 35 is high, d < 105 is medium, and d ≥ 105 is low. -/
def computeUrgencyFromDue (iso : Option String) (now : YMD) : Urgency :=
  match daysBetweenUTC iso now with
  | none => .low
  | some d => if d < 35 then .high else if d < 105 then .medium else .low

/-- JS `String.prototype.trim`: drop whitespace from both ends. -/
def trimChars (cs : List Char) : List Char :=
  (((cs.dropWhile Char.isWhitespace).reverse).dropWhile Char.isWhitespace).reverse

/-- The regex `^\d{4}-\d{2}-\d{2}$`. -/
def matchesISOShape (cs : List Char) : Bool :=
  match cs with
  | [c1, c2, c3, c4, h1, c5, c6, h2, c7, c8] =>
    c1.isDigit && c2.isDigit && c3.isDigit && c4.isDigit && h1 == Char.ofNat 45
      && c5.isDigit && c6.isDigit && h2 == Char.ofNat 45 && c7.isDigit && c8.isDigit
  | _ => false

/-- A run of ASCII digits of length between lo and hi. -/
def digitRun (lo hi : Nat) (cs : List Char) : Bool :=
  decide (lo ≤ cs.length ∧ cs.length ≤ hi) && cs.all Char.isDigit

/-- The regex `^(\d{1,2})\/(\d{1,2})\/(\d{2,4})$` with the three captured
groups read by `parseInt(-, 10)`: equivalently, splitting on the slash
yields exactly three digit runs of the required lengths. -/
def matchUS (cs : List Char) : Option (Nat × Nat × Nat) :=
  match splitOnChar (Char.ofNat 47) cs with
  | [p1, p2, p3] =>
    if digitRun 1 2 p1 && digitRun 1 2 p2 && digitRun 2 4 p3 then
      some (digitsToNat p1, digitsToNat p2, digitsToNat p3)
    else none
  | _ => none

/-- `String(n).padStart(2, "0")`. -/
def pad2 (n : Nat) : String :=
  if (Nat.repr n).length < 2 then "0" ++ Nat.repr n else Nat.repr n

/-- The result record of toISOIfPossible: `{ iso?: string; valid: boolean }`. -/
structure NormResult where
  iso : Option String
  valid : Bool
deriving DecidableEq

/-- toISOIfPossible: trim; empty is invalid; a `YYYY-MM-DD` shape passes
through as is; an `M/D/YY..YYYY` shape maps a year below 100 to 2000 + YY
and is valid when month is in [1, 12] and day in [1, 31], producing the
zero-padded canonical string; anything else is invalid. -/
def toISOIfPossible (input : String) : NormResult :=
  let s := trimChars input.data
  if s = [] then ⟨none, false⟩
  else if matchesISOShape s then ⟨some (String.mk s), true⟩
  else
    match matchUS s with
    | some (mm, dd, y0) =>
      let yyyy := if y0 < 100 then 2000 + y0 else y0
      if 1 ≤ mm ∧ mm ≤ 12 ∧ 1 ≤ dd ∧ dd ≤ 31 then
        ⟨some (Nat.repr yyyy ++ "-" ++ pad2 mm ++ "-" ++ pad2 dd), true⟩
      else ⟨none, false⟩
    | none => ⟨none, false⟩

/-- The due_on InlineInput onChange handler value:
`norm.iso ?? (raw.trim() ? raw : undefined)` — a parseable input is
stored canonically, unparseable nonempty text is retained verbatim, and
whitespace-only input clears the field. -/
def dueOnAfterChange (raw : String) : Option String :=
  match (toISOIfPossible raw).iso with
  | some iso => some iso
  | none => if trimChars raw.data = [] then none else some raw

/-- The loadWO urgency coercion `(w?.urgency as any) || "medium"`: JS
`||` takes the default exactly on falsy values, here a missing field or
the empty string; any other string is kept unchanged. -/
def loadWOUrgency (u : Option String) : String :=
  match u with
  | none => "medium"
  | some s => if s = "" then "medium" else s

/-- The safeParseTasks priority coercion:
`p === "high" || p === "medium" || p === "low" ? p : "high"` applied to a
possibly missing field. -/
def coercePriority (p : Option String) : String :=
  match p with
  | none => "high"
  | some s => if s = "high" ∨ s = "medium" ∨ s = "low" then s else "high"

/-! Predicates written from the claim wording, for refinement
comparisons against the source definitions. -/

/-- Written from the claim wording of C4: the input matches the
`YYYY-MM-DD` pattern, or matches `M/D/YYYY` or `M/D/YY` (1-2 digit
month and day, exactly 2 or exactly 4 digit year) with month in [1, 12]
and day in [1, 31]. -/
def claimValidC4 (cs : List Char) : Bool :=
  matchesISOShape cs ||
    (match splitOnChar (Char.ofNat 47) cs with
     | [p1, p2, p3] =>
       digitRun 1 2 p1 && digitRun 1 2 p2
         && (decide (p3.length = 2) || decide (p3.length = 4)) && p3.all Char.isDigit
         && decide (1 ≤ digitsToNat p1 ∧ digitsToNat p1 ≤ 12
              ∧ 1 ≤ digitsToNat p2 ∧ digitsToNat p2 ≤ 31)
     | _ => false)

/-- Written from the claim wording of C10: the input splits on the hyphen
into exactly three positive numeric parts. -/
def splitsIntoThreePositive (s : String) : Bool :=
  match (splitOnChar (Char.ofNat 45) s.data).map jsNumberOfPart with
  | [some y, some m, some d] => decide (0 < y ∧ 0 < m ∧ 0 < d)
  | _ => false

/-- The amended good-input condition for C10: the first three parts of
the hyphen split are all present, numeric and positive (parts beyond the
third are ignored by the destructuring). -/
def firstThreePositive (s : String) : Bool :=
  let parts := (splitOnChar (Char.ofNat 45) s.data).map jsNumberOfPart
  match parts.getD 0 none, parts.getD 1 none, parts.getD 2 none with
  | some y, some m, some d => decide (0 < y ∧ 0 < m ∧ 0 < d)
  | _, _, _ => false

/-- The amended validity condition for C4, over the trimmed input: the
`YYYY-MM-DD` shape, or the `M/D/Y` shape with 2-to-4-digit year, month in
[1, 12] and day in [1, 31]. -/
def amendedValidC4 (cs : List Char) : Bool :=
  matchesISOShape cs ||
    (match splitOnChar (Char.ofNat 47) cs with
     | [p1, p2, p3] =>
       digitRun 1 2 p1 && digitRun 1 2 p2 && digitRun 2 4 p3
         && decide (1 ≤ digitsToNat p1 ∧ digitsToNat p1 ≤ 12
              ∧ 1 ≤ digitsToNat p2 ∧ digitsToNat p2 ≤ 31)
     | _ => false)

/-! Helper lemmas. -/

/-- nextMondayFrom always moves forward by one to six days. -/
theorem nextMondayFrom_bounds (d : Nat) :
    d + 1 ≤ nextMondayFrom d ∧ nextMondayFrom d ≤ d + 6 := by
  simp only [nextMondayFrom, jsDow]
  split <;> omega

/-- The keep-condition of the cleanup filter, characterised. -/
theorem cleanup_keep_iff (todayIso : Nat) (t : Task) :
    ((if !t.done then true
      else
        match t.dueISO with
        | none => true
        | some d => decide (todayIso ≤ d)) = true)
      ↔ ¬ (t.done = true ∧ ∃ d, t.dueISO = some d ∧ d < todayIso) := by
  cases hd : t.done <;> cases hdue : t.dueISO <;> simp [hd, hdue]

/-- An invalid normalization result carries no canonical date. -/
theorem toISO_invalid_iso_none (input : String) :
    (toISOIfPossible input).valid = false → (toISOIfPossible input).iso = none := by
  simp only [toISOIfPossible]
  split
  · intro _; rfl
  · split
    · intro h; simp at h
    · split
      · split
        · intro h; simp at h
        · intro _; rfl
      · intro _; rfl

/-- The guard of daysBetweenUTC fails exactly when the first three parts
are not all positive numbers. -/
theorem parseISOParts_none_iff (s : String) :
    parseISOParts s = none ↔ firstThreePositive s = false := by
  simp only [parseISOParts, firstThreePositive]
  rcases h0 : ((splitOnChar (Char.ofNat 45) s.data).map jsNumberOfPart).getD 0 none with _ | y <;>
  rcases h1 : ((splitOnChar (Char.ofNat 45) s.data).map jsNumberOfPart).getD 1 none with _ | m <;>
  rcases h2 : ((splitOnChar (Char.ofNat 45) s.data).map jsNumberOfPart).getD 2 none with _ | d <;>
    simp [h0, h1, h2]
  omega

/-- Unfolding the weekday loop from a Wednesday: three entries. -/
theorem wdLoop_run3 (c : Nat) (h : jsDow c = 3) :
    wdLoop c 7 = [wdOpt c, wdOpt (c + 1), wdOpt (c + 2)] := by
  have h1 : jsDow (c + 1) = 4 := by simp [jsDow] at h ⊢; omega
  have h2 : jsDow (c + 2) = 5 := by simp [jsDow] at h ⊢; omega
  have h3 : jsDow (c + 3) = 6 := by simp [jsDow] at h ⊢; omega
  simp [wdLoop, h, h1, h2, h3, Nat.add_assoc]

/-- Unfolding the weekday loop from a Thursday: two entries. -/
theorem wdLoop_run4 (c : Nat) (h : jsDow c = 4) :
    wdLoop c 7 = [wdOpt c, wdOpt (c + 1)] := by
  have h1 : jsDow (c + 1) = 5 := by simp [jsDow] at h ⊢; omega
  have h2 : jsDow (c + 2) = 6 := by simp [jsDow] at h ⊢; omega
  simp [wdLoop, h, h1, h2, Nat.add_assoc]

/-- Unfolding the weekday loop from a Friday: one entry. -/
theorem wdLoop_run5 (c : Nat) (h : jsDow c = 5) :
    wdLoop c 7 = [wdOpt c] := by
  have h1 : jsDow (c + 1) = 6 := by simp [jsDow] at h ⊢; omega
  simp [wdLoop, h, h1]

/-- Unfolding the weekday loop from a Saturday: no entries. -/
theorem wdLoop_run6 (c : Nat) (h : jsDow c = 6) :
    wdLoop c 7 = [] := by
  simp [wdLoop, h]

/-- buildDueOptions always emits at least the "today" option. -/
theorem buildDueOptions_ne_nil (now : Nat) : buildDueOptions now ≠ [] := by
  simp only [buildDueOptions]
  split <;> simp

/-- The headI of a nonempty list is a member. -/
theorem headI_mem_of_ne_nil {α : Type} [Inhabited α] (l : List α) (h : l ≠ []) :
    l.headI ∈ l := by
  cases l with
  | nil => exact absurd rfl h
  | cons a t => simp

/-! Claim theorems. -/

/-- C1: the claim states that the date assigned to the next-monday bucket
is the next occurrence of Monday strictly after today, and on a Monday it
is today plus 7.  The code is a slip: on day 4 of the model (1970-01-05,
a Monday, `jsDow = 1`), `(1 + 7 - dow) % 7` is 0 and the `|| 1` fallback
yields 1 day, so nextMondayFrom returns day 5 — the next day, a Tuesday
(`jsDow = 2`) — rather than day 11, contradicting the function name and
the "Next Monday" option label built from it. -/
theorem nextMondayFrom_monday_slip :
    jsDow 4 = 1 ∧ nextMondayFrom 4 = 5 ∧ jsDow (nextMondayFrom 4) = 2 ∧
      nextMondayFrom 4 ≠ 4 + 7 := by
  decide

/-- C2: the urgency classifier returns low for a missing date, high for
day-distance d < 35, medium for 35 ≤ d < 105 and low for d ≥ 105, with
the boundary instances 34 → high, 35 → medium, 104 → medium, 105 → low
checked on concrete dates against now = 2025-01-01. -/
theorem computeUrgencyFromDue_spec :
    (∀ now : YMD, computeUrgencyFromDue none now = Urgency.low) ∧
    (∀ (s : String) (now : YMD) (d : Int), daysBetweenUTC (some s) now = some d →
      (computeUrgencyFromDue (some s) now = Urgency.high ↔ d < 35) ∧
      (computeUrgencyFromDue (some s) now = Urgency.medium ↔ 35 ≤ d ∧ d < 105) ∧
      (computeUrgencyFromDue (some s) now = Urgency.low ↔ 105 ≤ d)) ∧
    (daysBetweenUTC (some "2025-02-04") ⟨2025, 1, 1⟩ = some 34 ∧
      computeUrgencyFromDue (some "2025-02-04") ⟨2025, 1, 1⟩ = Urgency.high) ∧
    (daysBetweenUTC (some "2025-02-05") ⟨2025, 1, 1⟩ = some 35 ∧
      computeUrgencyFromDue (some "2025-02-05") ⟨2025, 1, 1⟩ = Urgency.medium) ∧
    (daysBetweenUTC (some "2025-04-15") ⟨2025, 1, 1⟩ = some 104 ∧
      computeUrgencyFromDue (some "2025-04-15") ⟨2025, 1, 1⟩ = Urgency.medium) ∧
    (daysBetweenUTC (some "2025-04-16") ⟨2025, 1, 1⟩ = some 105 ∧
      computeUrgencyFromDue (some "2025-04-16") ⟨2025, 1, 1⟩ = Urgency.low) := by
  refine ⟨fun now => rfl, ?_, by decide, by decide, by decide, by decide⟩
  intro s now d h
  have e : computeUrgencyFromDue (some s) now
      = if d < 35 then Urgency.high else if d < 105 then Urgency.medium else Urgency.low := by
    unfold computeUrgencyFromDue
    rw [h]
  rw [e]
  split_ifs with h1 h2
  · exact ⟨⟨fun _ => h1, fun _ => rfl⟩,
      ⟨by simp, fun hc => absurd hc (by omega)⟩,
      ⟨by simp, fun hc => absurd hc (by omega)⟩⟩
  · exact ⟨⟨by simp, fun hc => absurd hc (by omega)⟩,
      ⟨fun _ => ⟨by omega, h2⟩, fun _ => rfl⟩,
      ⟨by simp, fun hc => absurd hc (by omega)⟩⟩
  · exact ⟨⟨by simp, fun hc => absurd hc (by omega)⟩,
      ⟨by simp, fun hc => absurd hc (by omega)⟩,
      ⟨fun _ => by omega, fun _ => rfl⟩⟩

/-- Witness for C2 at the concrete boundary input 2025-02-04 against
now = 2025-01-01, day-distance 34. -/
theorem computeUrgencyFromDue_spec_witness :
    daysBetweenUTC (some "2025-02-04") ⟨2025, 1, 1⟩ = some 34 ∧
      computeUrgencyFromDue (some "2025-02-04") ⟨2025, 1, 1⟩ = Urgency.high :=
  ⟨by decide,
    (computeUrgencyFromDue_spec.2.1 "2025-02-04" ⟨2025, 1, 1⟩ 34 (by decide)).1.mpr (by decide)⟩

/-- C6: the rollover cleanup removes a record exactly when it is done,
has a due date, and that due date is strictly before today; done records
without a due date and undone records are always kept. -/
theorem cleanupDoneBeforeToday_mem (todayIso : Nat) (tasks : List Task) (t : Task) :
    t ∈ cleanupDoneBeforeToday todayIso tasks ↔
      t ∈ tasks ∧ ¬ (t.done = true ∧ ∃ d, t.dueISO = some d ∧ d < todayIso) := by
  unfold cleanupDoneBeforeToday
  rw [List.mem_filter]
  exact and_congr_right fun _ => cleanup_keep_iff todayIso t

/-- C8: a stored date ten days out keys to the same weekday-keyed bucket
whether computed at now or one day later; a stored date equal to now keys
to today at now, and one simulated day later it keys to neither today nor
tomorrow but to the weekday-keyed bucket of its literal date. -/
theorem computeKeyForISO_stability (now : Nat) :
    computeKeyForISO (some (now + 10)) now = DueKey.wd (now + 10) ∧
    computeKeyForISO (some (now + 10)) (now + 1) = DueKey.wd (now + 10) ∧
    computeKeyForISO (some now) now = DueKey.today ∧
    computeKeyForISO (some now) (now + 1) ≠ DueKey.today ∧
    computeKeyForISO (some now) (now + 1) ≠ DueKey.tomorrow ∧
    computeKeyForISO (some now) (now + 1) = DueKey.wd now := by
  obtain ⟨a1, a2⟩ := nextMondayFrom_bounds now
  obtain ⟨b1, b2⟩ := nextMondayFrom_bounds (now + 1)
  have e1 : computeKeyForISO (some (now + 10)) now = DueKey.wd (now + 10) := by
    simp only [computeKeyForISO]
    rw [if_neg (by omega), if_neg (by omega), if_neg (by omega)]
  have e2 : computeKeyForISO (some (now + 10)) (now + 1) = DueKey.wd (now + 10) := by
    simp only [computeKeyForISO]
    rw [if_neg (by omega), if_neg (by omega), if_neg (by omega)]
  have e3 : computeKeyForISO (some now) now = DueKey.today := by
    simp [computeKeyForISO]
  have e4 : computeKeyForISO (some now) (now + 1) = DueKey.wd now := by
    simp only [computeKeyForISO]
    rw [if_neg (by omega), if_neg (by omega), if_neg (by omega)]
  exact ⟨e1, e2, e3, by rw [e4]; simp, by rw [e4]; simp, e4⟩

/-- C9 counterexample: an unrecognised non-empty urgency string loaded
from storage is kept verbatim by loadWO, not coerced to "medium" as the
claim states. -/
theorem loadWOUrgency_unknown_kept :
    loadWOUrgency (some "banana") = "banana" ∧ loadWOUrgency (some "banana") ≠ "medium" := by
  decide

/-- C9 as amended: a missing or empty work-order urgency value becomes
"medium" but any other string is kept unchanged, while a task priority
that is not one of low, medium, high (including a missing one) becomes
"high", so after load every task priority is one of the three tiers. -/
theorem load_coercion_amended :
    (loadWOUrgency none = "medium") ∧ (loadWOUrgency (some "") = "medium") ∧
    (∀ s : String, s ≠ "" → loadWOUrgency (some s) = s) ∧
    (coercePriority none = "high") ∧
    (∀ s : String, s ≠ "high" → s ≠ "medium" → s ≠ "low" → coercePriority (some s) = "high") ∧
    (∀ p : Option String,
      coercePriority p = "high" ∨ coercePriority p = "medium" ∨ coercePriority p = "low") := by
  refine ⟨rfl, rfl, ?_, rfl, ?_, ?_⟩
  · intro s hs
    simp only [loadWOUrgency]
    rw [if_neg hs]
  · intro s h1 h2 h3
    simp only [coercePriority]
    rw [if_neg (by tauto)]
  · intro p
    match p with
    | none => exact Or.inl rfl
    | some s =>
      by_cases h : s = "high" ∨ s = "medium" ∨ s = "low"
      · rcases h with h | h | h <;> subst h <;> decide
      · refine Or.inl ?_
        simp only [coercePriority]
        rw [if_neg h]

/-- Witness for C9 at concrete inputs. -/
theorem load_coercion_amended_witness :
    ("wat" : String) ≠ "" ∧ loadWOUrgency (some "wat") = "wat" :=
  ⟨by decide, load_coercion_amended.2.2.1 "wat" (by decide)⟩

/-- C10 counterexample: the four-part string 2025-03-04-99 does not split
on the hyphen into three positive numeric parts, yet daysBetweenUTC reads
its first three parts, yields a finite distance of 0 days from
now = 2025-03-04, and the classifier returns high, not low as the claim
requires for such inputs. -/
theorem computeUrgency_extra_parts_counterexample :
    splitsIntoThreePositive "2025-03-04-99" = false ∧
    daysBetweenUTC (some "2025-03-04-99") ⟨2025, 3, 4⟩ = some 0 ∧
    computeUrgencyFromDue (some "2025-03-04-99") ⟨2025, 3, 4⟩ = Urgency.high := by
  decide

/-- C10 as amended: for a missing value, and for every string whose first
three hyphen-separated parts are not all positive numbers (parts beyond
the third are ignored), daysBetweenUTC returns infinity (modelled none)
and the classifier returns low; an unparseable non-blank due_on input is
retained verbatim by the field handler, and such retained free text also
classifies low. -/
theorem computeUrgency_total_on_bad_input :
    (∀ now : YMD, daysBetweenUTC none now = none ∧ computeUrgencyFromDue none now = Urgency.low) ∧
    (∀ (s : String) (now : YMD), firstThreePositive s = false →
      daysBetweenUTC (some s) now = none ∧ computeUrgencyFromDue (some s) now = Urgency.low) ∧
    (∀ raw : String, (toISOIfPossible raw).valid = false → trimChars raw.data ≠ [] →
      dueOnAfterChange raw = some raw) ∧
    firstThreePositive "" = false ∧ firstThreePositive "not a date" = false ∧
    computeUrgencyFromDue (dueOnAfterChange "not a date") ⟨2025, 3, 4⟩ = Urgency.low := by
  refine ⟨fun now => ⟨rfl, rfl⟩, ?_, ?_, by decide, by decide, by decide⟩
  · intro s now h
    have hp : parseISOParts s = none := (parseISOParts_none_iff s).mpr h
    constructor
    · simp only [daysBetweenUTC]
      rw [hp]
    · simp only [computeUrgencyFromDue, daysBetweenUTC]
      rw [hp]
  · intro raw hv ht
    simp only [dueOnAfterChange]
    rw [toISO_invalid_iso_none raw hv]
    simp only
    rw [if_neg ht]

/-- Witness for C10 at the concrete input "not a date". -/
theorem computeUrgency_total_witness :
    firstThreePositive "not a date" = false ∧
      computeUrgencyFromDue (some "not a date") ⟨2025, 3, 4⟩ = Urgency.low :=
  ⟨by decide,
    (computeUrgency_total_on_bad_input.2.1 "not a date" ⟨2025, 3, 4⟩ (by decide)).2⟩

/-- C3: the due-option generator always emits "today" first; on a Friday,
Saturday or Sunday it emits exactly one further option, "next-mon", with
no weekday or "tomorrow" entries; on Monday through Thursday it emits
"tomorrow", then one weekday-keyed option per literal date from today + 2
up to and including the next Friday, and finally "next-mon". -/
theorem buildDueOptions_spec (now : Nat) :
    (jsDow now = 5 ∨ jsDow now = 6 ∨ jsDow now = 0 →
      buildDueOptions now =
        [⟨.today, (.today, now), now⟩,
         ⟨.nextMon, (.nextMon, nextMondayFrom now), nextMondayFrom now⟩]) ∧
    (jsDow now = 1 ∨ jsDow now = 2 ∨ jsDow now = 3 ∨ jsDow now = 4 →
      buildDueOptions now =
        [⟨.today, (.today, now), now⟩, ⟨.tomorrow, (.tomorrow, now + 1), now + 1⟩]
          ++ (List.range (4 - jsDow now)).map (fun i => wdOpt (now + 2 + i))
          ++ [⟨.nextMon, (.nextMon, nextMondayFrom now), nextMondayFrom now⟩]) := by
  constructor
  · intro h
    simp only [buildDueOptions]
    rw [if_pos h]
  · intro h
    have hne : ¬ (jsDow now = 5 ∨ jsDow now = 6 ∨ jsDow now = 0) := by omega
    simp only [buildDueOptions]
    rw [if_neg hne]
    rcases h with h | h | h | h
    · have e : wdLoop (now + 2) 7 = [wdOpt (now + 2), wdOpt (now + 3), wdOpt (now + 4)] :=
        wdLoop_run3 _ (by simp [jsDow] at h ⊢; omega)
      rw [h, e]
      simp [List.range_succ, Nat.add_assoc]
    · have e : wdLoop (now + 2) 7 = [wdOpt (now + 2), wdOpt (now + 3)] :=
        wdLoop_run4 _ (by simp [jsDow] at h ⊢; omega)
      rw [h, e]
      simp [List.range_succ, Nat.add_assoc]
    · have e : wdLoop (now + 2) 7 = [wdOpt (now + 2)] :=
        wdLoop_run5 _ (by simp [jsDow] at h ⊢; omega)
      rw [h, e]
      simp [List.range_succ]
    · have e : wdLoop (now + 2) 7 = [] :=
        wdLoop_run6 _ (by simp [jsDow] at h ⊢; omega)
      rw [h, e]
      simp

/-- Witness for C3 at day 2 of the model (1970-01-03, a Saturday). -/
theorem buildDueOptions_spec_witness :
    (jsDow 2 = 5 ∨ jsDow 2 = 6 ∨ jsDow 2 = 0) ∧
      buildDueOptions 2 =
        [⟨.today, (.today, 2), 2⟩,
         ⟨.nextMon, (.nextMon, nextMondayFrom 2), nextMondayFrom 2⟩] :=
  ⟨by decide, (buildDueOptions_spec 2).1 (by decide)⟩

/-- C5 counterexample: a due-date change does not write only the pending
due fields — it also rewrites the dueLabel pill text immediately.  At day
0 (a Thursday) staging "tomorrow" on the sample task leaves dueISO alone
but changes dueLabel, so the updated task differs from the original in
more than pendingDueKey and pendingDueISO. -/
theorem onChangeDue_writes_dueLabel :
    (onChangeDue 0 DueKey.tomorrow sampleTask).dueISO = sampleTask.dueISO ∧
    (onChangeDue 0 DueKey.tomorrow sampleTask).dueLabel ≠ sampleTask.dueLabel ∧
    ¬ (onChangeDue 0 DueKey.tomorrow sampleTask =
        { sampleTask with
            pendingDueKey := (onChangeDue 0 DueKey.tomorrow sampleTask).pendingDueKey
            pendingDueISO := (onChangeDue 0 DueKey.tomorrow sampleTask).pendingDueISO }) := by
  decide

/-- C5 as amended: a due-date change on a record under edit writes the
pending due fields and the dueLabel display text, while the committed
dueISO, the dueKey and hence the bucket membership are unchanged, as are
all other fields; when the edit ends, the pending due date is copied into
dueISO, the bucket key is recomputed from the new dueISO, and the pending
fields are cleared. -/
theorem stagedEdit_amended :
    (∀ (now : Nat) (k : DueKey) (t : Task),
      (onChangeDue now k t).dueISO = t.dueISO ∧
      (onChangeDue now k t).dueKey = t.dueKey ∧
      (onChangeDue now k t).done = t.done ∧
      (onChangeDue now k t).priority = t.priority ∧
      (onChangeDue now k t).id = t.id ∧
      (onChangeDue now k t).text = t.text ∧
      (onChangeDue now k t).notes = t.notes ∧
      (onChangeDue now k t).expanded = t.expanded ∧
      computeGroupLabelForISO (onChangeDue now k t).dueISO now
        = computeGroupLabelForISO t.dueISO now ∧
      (∃ opt ∈ buildDueOptions now,
        (onChangeDue now k t).pendingDueKey = some opt.key ∧
        (onChangeDue now k t).pendingDueISO = some opt.iso ∧
        (onChangeDue now k t).dueLabel = some opt.label)) ∧
    (∀ (now : Nat) (t : Task) (p : Nat), t.pendingDueISO = some p →
      (commitPending now t).dueISO = some p ∧
      (commitPending now t).dueKey = some (computeKeyForISO (some p) now) ∧
      (commitPending now t).pendingDueISO = none ∧
      (commitPending now t).pendingDueKey = none) := by
  constructor
  · intro now k t
    refine ⟨rfl, rfl, rfl, rfl, rfl, rfl, rfl, rfl, rfl, ?_⟩
    rcases hf : (buildDueOptions now).find? (fun o => o.key == k) with _ | o
    · refine ⟨(buildDueOptions now).headI,
        headI_mem_of_ne_nil _ (buildDueOptions_ne_nil now), ?_, ?_, ?_⟩ <;>
        simp [onChangeDue, hf]
    · refine ⟨o, List.mem_of_find?_eq_some hf, ?_, ?_, ?_⟩ <;>
        simp [onChangeDue, hf]
  · intro now t p hp
    refine ⟨?_, ?_, ?_, ?_⟩ <;>
      simp [commitPending, hp, Option.orElse]

/-- Witness for C5 at a concrete pinned task with a staged due date. -/
theorem stagedEdit_amended_witness :
    (({ sampleTask with pendingDueISO := some 9 } : Task).pendingDueISO = some 9) ∧
      (commitPending 0 { sampleTask with pendingDueISO := some 9 }).dueISO = some 9 :=
  ⟨rfl, (stagedEdit_amended.2 0 { sampleTask with pendingDueISO := some 9 } 9 rfl).1⟩

/-- The sort comparator is sorted by mergeSort into a pairwise-ordered
list: the comparator is transitive and total. -/
theorem sort_pairwise_taskLe (im : String → Nat) (items : List Task) :
    (sortByPriorityStable items im).Pairwise (fun a b => taskLe im a b = true) := by
  apply List.sorted_mergeSort
  · intro a b c hab hbc
    simp only [taskLe, decide_eq_true_eq] at hab hbc ⊢
    omega
  · intro a b
    simp only [taskLe, Bool.or_eq_true, decide_eq_true_eq]
    omega

/-- The sort is a permutation of its input. -/
theorem sort_perm_of_items (im : String → Nat) (items : List Task) :
    List.Perm (sortByPriorityStable items im) items :=
  List.mergeSort_perm items (taskLe im)

/-- Sorting a sorted list leaves it unchanged. -/
theorem sort_idempotent (im : String → Nat) (items : List Task) :
    sortByPriorityStable (sortByPriorityStable items im) im = sortByPriorityStable items im :=
  List.mergeSort_of_sorted (sort_pairwise_taskLe im items)

/-- C7: the ordering engine sorts by priority rank ascending with ties
broken by the stored insertion index; the "today" bucket alone is split
into not-done followed by done, each partition sorted independently;
every other bucket sorts the full set; the result is a permutation of the
input, applying the ordering twice yields the same sequence, and two
equal-priority records always appear in insertion-index order. -/
theorem ordering_engine_spec :
    (∀ (im : String → Nat) (items : List Task),
      List.Perm (sortByPriorityStable items im) items) ∧
    (∀ (im : String → Nat) (items : List Task),
      (sortByPriorityStable items im).Pairwise (fun a b =>
        priorityRank a.priority < priorityRank b.priority ∨
          (priorityRank a.priority = priorityRank b.priority ∧ im a.id ≤ im b.id))) ∧
    (∀ (im : String → Nat) (items : List Task),
      (sortByPriorityStable items im).Pairwise (fun a b =>
        priorityRank a.priority = priorityRank b.priority → im a.id ≤ im b.id)) ∧
    (∀ (im : String → Nat) (items : List Task),
      sortByPriorityStable (sortByPriorityStable items im) im = sortByPriorityStable items im) ∧
    (∀ (im : String → Nat) (items : List Task),
      orderBucket GroupLabel.today items im =
        sortByPriorityStable (items.filter (fun x => !x.done)) im
          ++ sortByPriorityStable (items.filter (fun x => x.done)) im) ∧
    (∀ (lbl : GroupLabel) (im : String → Nat) (items : List Task), lbl ≠ GroupLabel.today →
      orderBucket lbl items im = sortByPriorityStable items im) ∧
    (∀ (lbl : GroupLabel) (im : String → Nat) (items : List Task),
      List.Perm (orderBucket lbl items im) items) ∧
    (∀ (lbl : GroupLabel) (im : String → Nat) (items : List Task),
      orderBucket lbl (orderBucket lbl items im) im = orderBucket lbl items im) := by
  have pair2 : ∀ (im : String → Nat) (items : List Task),
      (sortByPriorityStable items im).Pairwise (fun a b =>
        priorityRank a.priority < priorityRank b.priority ∨
          (priorityRank a.priority = priorityRank b.priority ∧ im a.id ≤ im b.id)) := by
    intro im items
    refine (sort_pairwise_taskLe im items).imp ?_
    intro a b h
    simpa [taskLe, decide_eq_true_eq] using h
  refine ⟨sort_perm_of_items, pair2, ?_, sort_idempotent, ?_, ?_, ?_, ?_⟩
  · intro im items
    refine (pair2 im items).imp ?_
    intro a b h heq
    rcases h with h | h
    · omega
    · exact h.2
  · intro im items
    simp [orderBucket]
  · intro lbl im items h
    simp [orderBucket, h]
  · intro lbl im items
    by_cases h : lbl = GroupLabel.today
    · subst h
      simp only [orderBucket, if_pos rfl]
      refine ((sort_perm_of_items im _).append (sort_perm_of_items im _)).trans ?_
      have hp := List.filter_append_perm (fun x => !x.done) items
      simpa [Bool.not_not] using hp
    · simp only [orderBucket, if_neg h]
      exact sort_perm_of_items im items
  · intro lbl im items
    by_cases h : lbl = GroupLabel.today
    · subst h
      simp only [orderBucket, eq_self_iff_true, if_true]
      set sU := sortByPriorityStable (items.filter (fun x => !x.done)) im with hsU
      set sD := sortByPriorityStable (items.filter (fun x => x.done)) im with hsD
      have hUmem : ∀ x ∈ sU, (!x.done) = true := by
        intro x hx
        rw [hsU] at hx
        simp only [sortByPriorityStable] at hx
        have hx2 : x ∈ items.filter (fun x => !x.done) := List.mem_mergeSort.1 hx
        exact (List.mem_filter.mp hx2).2
      have hDmem : ∀ x ∈ sD, x.done = true := by
        intro x hx
        rw [hsD] at hx
        simp only [sortByPriorityStable] at hx
        have hx2 : x ∈ items.filter (fun x => x.done) := List.mem_mergeSort.1 hx
        exact (List.mem_filter.mp hx2).2
      have e1 : (sU ++ sD).filter (fun x => !x.done) = sU := by
        rw [List.filter_append, List.filter_eq_self.mpr hUmem,
          List.filter_eq_nil_iff.mpr ?_, List.append_nil]
        intro a ha hcontra
        have hd := hDmem a ha
        simp [hd] at hcontra
      have e2 : (sU ++ sD).filter (fun x => x.done) = sD := by
        rw [List.filter_append, List.filter_eq_self.mpr hDmem,
          List.filter_eq_nil_iff.mpr ?_, List.nil_append]
        intro a ha hcontra
        have hu := hUmem a ha
        simp [hcontra] at hu
      rw [e1, e2,
        show sortByPriorityStable sU im = sU from by rw [hsU]; exact sort_idempotent im _,
        show sortByPriorityStable sD im = sD from by rw [hsD]; exact sort_idempotent im _]
    · simp only [orderBucket, if_neg h]
      exact sort_idempotent im items

/-- Witness for C7 on a non-today bucket at concrete inputs. -/
theorem ordering_engine_spec_witness :
    (GroupLabel.noDate ≠ GroupLabel.today) ∧
      orderBucket GroupLabel.noDate [sampleTask] (fun _ => 0)
        = sortByPriorityStable [sampleTask] (fun _ => 0) :=
  ⟨by decide,
    ordering_engine_spec.2.2.2.2.2.1 GroupLabel.noDate (fun _ => 0) [sampleTask] (by decide)⟩

/-- Inversion of a successful `M/D/Y` match: the split yields exactly
three digit runs of the required lengths and the values are their digit
values. -/
theorem matchUS_some_inv (cs : List Char) (mm dd y0 : Nat) (h : matchUS cs = some (mm, dd, y0)) :
    ∃ p1 p2 p3, splitOnChar (Char.ofNat 47) cs = [p1, p2, p3] ∧
      (digitRun 1 2 p1 && digitRun 1 2 p2 && digitRun 2 4 p3) = true ∧
      digitsToNat p1 = mm ∧ digitsToNat p2 = dd ∧ digitsToNat p3 = y0 := by
  simp only [matchUS] at h
  split at h
  · next p1 p2 p3 hsp =>
    split at h
    · next hcond =>
      refine ⟨p1, p2, p3, hsp, hcond, ?_, ?_, ?_⟩ <;> simp_all
    · simp at h
  · simp at h

/-- Inversion of a failed `M/D/Y` match on a three-part split: one of the
digit-run conditions fails. -/
theorem matchUS_none_inv (cs : List Char) (h : matchUS cs = none) :
    ∀ p1 p2 p3, splitOnChar (Char.ofNat 47) cs = [p1, p2, p3] →
      (digitRun 1 2 p1 && digitRun 1 2 p2 && digitRun 2 4 p3) = false := by
  intro p1 p2 p3 hsp
  simp only [matchUS, hsp] at h
  by_contra hc
  rw [Bool.not_eq_false] at hc
  rw [if_pos hc] at h
  cases h

/-- The normalizer accepts exactly the amended condition on the trimmed
input. -/
theorem valid_iff_amended (input : String) :
    (toISOIfPossible input).valid = true ↔ amendedValidC4 (trimChars input.data) = true := by
  simp only [toISOIfPossible]
  split
  · next h0 =>
    rw [h0]
    decide
  · next h0 =>
    split
    · next hiso =>
      simp [amendedValidC4, hiso]
    · next hiso =>
      rw [Bool.not_eq_true] at hiso
      split
      · next mm dd y0 hus =>
        obtain ⟨p1, p2, p3, hsp, hcond, e1, e2, e3⟩ := matchUS_some_inv _ mm dd y0 hus
        rw [Bool.and_eq_true, Bool.and_eq_true] at hcond
        obtain ⟨⟨h1, h2⟩, h3⟩ := hcond
        split
        · next hr =>
          simp only [amendedValidC4, hiso, Bool.false_or, hsp, h1, h2, h3, e1, e2,
            Bool.true_and, Bool.and_true, decide_eq_true_eq]
          exact ⟨fun _ => hr, fun _ => trivial⟩
        · next hr =>
          simp only [amendedValidC4, hiso, Bool.false_or, hsp, h1, h2, h3, e1, e2,
            Bool.true_and, Bool.and_true, decide_eq_true_eq]
          exact ⟨fun hf => absurd hf (by simp), fun hc => absurd hc hr⟩
      · next hus =>
        simp only [amendedValidC4, hiso, Bool.false_or]
        rcases hsp : splitOnChar (Char.ofNat 47) (trimChars input.data) with _ | ⟨p1, t1⟩
        · simp
        · rcases t1 with _ | ⟨p2, t2⟩
          · simp
          · rcases t2 with _ | ⟨p3, t3⟩
            · simp
            · rcases t3 with _ | ⟨p4, t4⟩
              · have hf := matchUS_none_inv _ hus p1 p2 p3 hsp
                simp [hf]
              · simp

/-- C4 counterexample: the claim says valid exactly on the two untrimmed
patterns with a 2 or 4 digit year, but the code also accepts a 3-digit
year (the regex year group is 2-to-4 digits) and trims whitespace first:
the input 1/2/345 is valid with canonical date 345-01-02, and a
space-prefixed ISO input is valid, though neither satisfies the claimed
pattern condition. -/
theorem toISOIfPossible_counterexample :
    ((toISOIfPossible "1/2/345").valid = true ∧ claimValidC4 ("1/2/345".data) = false ∧
      (toISOIfPossible "1/2/345").iso = some "345-01-02") ∧
    ((toISOIfPossible " 2025-03-04").valid = true ∧ claimValidC4 (" 2025-03-04".data) = false) := by
  decide

/-- C4 as amended: the normalizer returns valid with a canonical date
exactly when the whitespace-trimmed input matches YYYY-MM-DD, or matches
M/D/Y with 1-2 digit month and day and 2-to-4-digit year (a year below
100 read as 2000 + YY) with month in [1, 12] and day in [1, 31]; every
other input is invalid with no canonical date; no month-length or
leap-year check is made, so 2/31/25 is accepted; and the round-trip
instances hold. -/
theorem toISOIfPossible_amended :
    (∀ input : String,
      (toISOIfPossible input).valid = true ↔ amendedValidC4 (trimChars input.data) = true) ∧
    (∀ input : String, (toISOIfPossible input).valid = false → (toISOIfPossible input).iso = none) ∧
    toISOIfPossible "3/4/25" = ⟨some "2025-03-04", true⟩ ∧
    toISOIfPossible "2025-03-04" = ⟨some "2025-03-04", true⟩ ∧
    toISOIfPossible "not a date" = ⟨none, false⟩ ∧
    (toISOIfPossible "2/31/25").valid = true :=
  ⟨valid_iff_amended, toISO_invalid_iso_none, by decide, by decide, by decide, by decide⟩

/-- Witness for C4 at the concrete invalid input "not a date". -/
theorem toISOIfPossible_amended_witness :
    (toISOIfPossible "not a date").valid = false ∧ (toISOIfPossible "not a date").iso = none :=
  ⟨by decide, toISOIfPossible_amended.2.1 "not a date" (by decide)⟩

/-- Witness for C6 at a concrete collection and day. -/
theorem cleanupDoneBeforeToday_mem_witness :
    sampleTask ∈ cleanupDoneBeforeToday 1 [sampleTask] ↔
      sampleTask ∈ [sampleTask] ∧
        ¬ (sampleTask.done = true ∧ ∃ d, sampleTask.dueISO = some d ∧ d < 1) :=
  cleanupDoneBeforeToday_mem 1 [sampleTask] sampleTask

/-- Witness for C8 at the concrete instant day 0. -/
theorem computeKeyForISO_stability_witness :
    computeKeyForISO (some 10) 0 = DueKey.wd 10 :=
  (computeKeyForISO_stability 0).1

end TodoWO
